import Mathlib

/-!
Verification of the computing-society moderation bot (Go sources) against its
natural-language specification.  The repository contains three revisions of the
bot: `main.go` (no rate limiting, no buttons), `part_000` (global fixed 5-minute
rate limit, approve/deny buttons) and `part_001` (per-guild configurable rate
limit, approve/deny buttons, rate-limit admin commands).  The definitions below
are shallow embeddings of those Go functions: time instants and durations are
modelled as `Int` nanoseconds (Go `time.Time` differences and `time.Duration`
are signed 64-bit nanosecond counts), Go maps are modelled as association
lists, and each handler is modelled as a pure function returning its updated
state together with the list of outbound platform calls (effects) it performs,
in order.
-/

set_option autoImplicit false

namespace ModBot

/-- Lookup in an association list, modelling Go map indexing `m[k]`
(together with the `, ok` form: `none` means the key is absent). -/
def lookupKey {α : Type} (k : String) : List (String × α) → Option α
  | [] => none
  | (k', v) :: rest => if k' = k then some v else lookupKey k rest

/-- Update/insert in an association list, modelling Go map assignment
`m[k] = v`. -/
def setKey {α : Type} (k : String) (v : α) : List (String × α) → List (String × α)
  | [] => [(k, v)]
  | (k', v') :: rest => if k' = k then (k, v) :: rest else (k', v') :: setKey k v rest

@[simp] theorem lookupKey_setKey_self {α : Type} (k : String) (v : α)
    (m : List (String × α)) : lookupKey k (setKey k v m) = some v := by
  induction m with
  | nil => simp [lookupKey, setKey]
  | cons p rest ih =>
    obtain ⟨k', v'⟩ := p
    by_cases h : k' = k <;> simp [lookupKey, setKey, h, ih]

@[simp] theorem lookupKey_setKey_ne {α : Type} {k k' : String} (v : α)
    (m : List (String × α)) (h : k' ≠ k) :
    lookupKey k' (setKey k v m) = lookupKey k' m := by
  induction m with
  | nil => simp [lookupKey, setKey, Ne.symm h]
  | cons p rest ih =>
    obtain ⟨k'', v''⟩ := p
    by_cases hk : k'' = k
    · subst hk
      simp [lookupKey, setKey, Ne.symm h]
    · by_cases hk' : k'' = k' <;> simp [lookupKey, setKey, hk, hk', ih, h]

/-- One nanosecond, the unit of Go `time.Duration`. -/
def Nanosecond : Int := 1

/-- Go `time.Minute` in nanoseconds. -/
def Minute : Int := 60000000000

/-- The character class `[a-zA-Z0-9._%+-]` of the source `emailRegex`. -/
def isEmailLocalChar (c : Char) : Bool :=
  c.isAlpha || c.isDigit || c = '.' || c = '_' || c = '%' || c = '+' || c = '-'

/-- The literal tail `@uclan.ac.uk` of the source `emailRegex`
(`^[a-zA-Z0-9._%+-]+@uclan\.ac\.uk$`). -/
def emailDomainSuffix : List Char := "@uclan.ac.uk".toList

/-- `emailRegex.MatchString` from `part_000`/`part_001`: the anchored regex
`^[a-zA-Z0-9._%+-]+@uclan\.ac\.uk$`.  Because the character class does not
contain `@` while the literal tail starts with `@`, a match is forced to split
at the first character outside the class, so the regex is equivalent to this
greedy scan: a nonempty maximal prefix of class characters followed by exactly
the literal suffix. -/
def emailRegexMatch (s : String) : Bool :=
  !(s.toList.takeWhile isEmailLocalChar).isEmpty &&
    s.toList.dropWhile isEmailLocalChar == emailDomainSuffix

/-- Per-user last-attempt timestamps, modelling the global `rateLimitMap`. -/
abbrev RateLimitMap := List (String × Int)

/-- The rate-limit step common to `processEmailVerification` in `part_000`
(with `dur = 5 * Minute`) and `part_001` (with the configured duration):
under the lock, look up the last timestamp; if present and `now - last < dur`,
refuse and leave the map unchanged; otherwise record `now` and allow. -/
def rateLimitCheck (m : RateLimitMap) (userID : String) (now dur : Int) :
    Bool × RateLimitMap :=
  match lookupKey userID m with
  | some last => if now - last < dur then (false, m) else (true, setKey userID now m)
  | none => (true, setKey userID now m)

/-- One outbound platform call performed by a handler, in the order the Go
code performs them.  Each constructor names the `discordgo` session method it
models; arguments are the data the call would transmit. -/
inductive Effect where
  | channelMessageSend (channelID content : String)
  | channelMessageSendComplex (channelID content : String) (componentIDs : List String)
  | interactionRespondDeferred
  | interactionResponseEdit (content : String)
  | channelMessageEdit (channelID messageID content : String) (componentIDs : List String)
  | userChannelCreate (userID : String)
  | guildMemberRoleRemove (guildID userID roleID : String)
  | guildMemberDelete (guildID userID : String)
  | logLine (line : String)
deriving DecidableEq, Repr

/-- A guild the bot is present in (`s.State.Guilds` entry) together with the
outcome of `s.GuildMember(guild.ID, userID)` probes: the users for whom the
probe succeeds. -/
structure Guild where
  id : String
  members : List String
deriving DecidableEq, Repr

/-- The guild-resolution scan of `processEmailVerification`: iterate over
`s.State.Guilds`, first guild whose membership probe succeeds wins; the Go
code signals "no guild" with the empty-string sentinel. -/
def findGuildID (guilds : List Guild) (userID : String) : String :=
  match guilds with
  | [] => ""
  | g :: rest => if g.members.contains userID then g.id else findGuildID rest userID

/-- The fields of a `*discordgo.MessageCreate` event the handlers read.
`guildID` is `m.GuildID`, which is the empty string for a direct message. -/
structure Message where
  authorID : String
  username : String
  discriminator : String
  content : String
  channelID : String
  guildID : String
deriving DecidableEq, Repr

namespace Part000

/-- `ServerConfig` of the `part_000` / `main.go` revisions. -/
structure ServerConfig where
  verificationChannelID : String
  memberAuditChannelID : String
  unverifiedRoleID : String
deriving DecidableEq, Repr

/-- `processEmailVerification` from `part_000`: rate-limit check (global,
fixed 5-minute window) first, then email validation, then guild resolution,
then the config lookup guarded by `!exists || serverConfig.VerificationChannelID == ""`
(note: the Go code tests the `VerificationChannelID` field there while its log
line speaks of the member audit channel), and finally the audit post with the
`approve_`/`deny_` buttons.  Returns the updated rate-limit map and the list
of outbound calls. -/
def processEmailVerification (cfg : List (String × ServerConfig))
    (guilds : List Guild) (rl : RateLimitMap) (m : Message) (now : Int) :
    RateLimitMap × List Effect :=
  let check := rateLimitCheck rl m.authorID now (5 * Minute)
  if !check.1 then
    (check.2, [Effect.channelMessageSend m.channelID
      "Please wait 5 minutes before sending another verification request."])
  else if !emailRegexMatch m.content then
    (check.2, [Effect.channelMessageSend m.channelID
      "Invalid email. Please provide a valid UCLan email."])
  else
    let guildID := findGuildID guilds m.authorID
    if guildID = "" then
      (check.2, [Effect.logLine "User is not in any guild"])
    else
      match lookupKey guildID cfg with
      | none =>
          (check.2, [Effect.logLine
            ("No member audit channel configured for guild " ++ guildID)])
      | some serverConfig =>
          if serverConfig.verificationChannelID = "" then
            (check.2, [Effect.logLine
              ("No member audit channel configured for guild " ++ guildID)])
          else
            (check.2, [Effect.channelMessageSendComplex serverConfig.memberAuditChannelID
              ("User " ++ m.username ++ "#" ++ m.discriminator ++
                " has requested verification with email " ++ m.content)
              ["approve_" ++ m.authorID, "deny_" ++ m.authorID]])

end Part000

namespace Part001

/-- `ServerConfig` of the `part_001` revision. -/
structure ServerConfig where
  memberAuditChannelID : String
  unverifiedRoleID : String
  rateLimitEnabled : Bool
  rateLimitDuration : Int
deriving DecidableEq, Repr

/-- The Go zero value of `ServerConfig`, produced by `config.Servers[guildID]`
on a missing key and by `ServerConfig{}`. -/
def ServerConfig.zero : ServerConfig :=
  { memberAuditChannelID := "", unverifiedRoleID := "", rateLimitEnabled := false,
    rateLimitDuration := 0 }

instance : Inhabited ServerConfig := ⟨ServerConfig.zero⟩

/-- `processEmailVerification` from `part_001`.  It first looks up the config
entry for `m.GuildID` (the message's own guild id, which is empty for a DM)
and returns when that entry is absent; only then come the rate-limit check
(when enabled for that entry), the email validation, the guild-resolution
scan, and the audit post, which reads the resolved guild's config with plain
indexing (zero value when absent) and performs no audit-channel check. -/
def processEmailVerification (cfg : List (String × ServerConfig))
    (guilds : List Guild) (rl : RateLimitMap) (m : Message) (now : Int) :
    RateLimitMap × List Effect :=
  match lookupKey m.guildID cfg with
  | none => (rl, [Effect.logLine ("No config found for guild " ++ m.guildID)])
  | some serverConfig =>
    let check :=
      if serverConfig.rateLimitEnabled then
        rateLimitCheck rl m.authorID now serverConfig.rateLimitDuration
      else (true, rl)
    if !check.1 then
      (check.2, [Effect.channelMessageSend m.channelID
        ("Please wait " ++ toString (serverConfig.rateLimitDuration / Minute) ++
          " minutes before sending another verification request.")])
    else if !emailRegexMatch m.content then
      (check.2, [Effect.channelMessageSend m.channelID
        "Invalid email. Please provide a valid UCLan email."])
    else
      let guildID := findGuildID guilds m.authorID
      if guildID = "" then
        (check.2, [Effect.logLine "User is not in any guild"])
      else
        let resolved := (lookupKey guildID cfg).getD ServerConfig.zero
        (check.2, [Effect.channelMessageSendComplex resolved.memberAuditChannelID
          ("User " ++ m.username ++ "#" ++ m.discriminator ++
            " has requested verification with email " ++ m.content)
          ["approve_" ++ m.authorID, "deny_" ++ m.authorID]])

/-- `strings.Split(s, sep)` for a one-character separator, on the character
list of `s`: Go semantics, so `splitChar sep [] = [[]]` and separators at the
ends produce empty fields. -/
def splitChar (sep : Char) : List Char → List (List Char)
  | [] => [[]]
  | c :: rest =>
    if c = sep then [] :: splitChar sep rest
    else
      match splitChar sep rest with
      | [] => [[c]]
      | p :: ps => (c :: p) :: ps

/-- Outcomes of the fallible platform calls `handleButton` makes, fixed up
front: whether the deferred acknowledgement succeeds, the DM channel returned
by `UserChannelCreate` (`none` models an error), and whether
`GuildMemberDelete` succeeds. -/
structure ButtonEnv where
  ackOk : Bool
  dmChannel : Option String
  memberDeleteOk : Bool
deriving DecidableEq, Repr

/-- The fields of the button `*discordgo.InteractionCreate` the handler
reads: the component's custom id, the interaction's guild, channel and the
id of the audit message carrying the buttons. -/
structure ButtonInteraction where
  customID : String
  guildID : String
  channelID : String
  messageID : String
deriving DecidableEq, Repr

/-- The denial DM text of `handleButton`. -/
def denialMessage : String :=
  "Oops! You need to verify your identity with a UCLan email address to access the UCLan Computing Society server. This is to ensure only society members have access to the server and ensure we keep a safe and civil community.\n\nAs you did not verify your email, you were kicked from the server. You can rejoin and retry verification using this link: https://discord.gg/CEgCy5ejag. Thank you 🙂"

/-- `handleButton` from `part_001`: defer-acknowledge; split the custom id on
`_`; fewer or more than two parts → log and return; `approve` → DM the user,
remove the unverified role when configured, edit the audit message (buttons
stripped, success line) and the acknowledgement; `deny` → DM the user,
attempt the kick (on failure edit the acknowledgement to an error and return),
then edit the audit message (buttons stripped, denial line) and the
acknowledgement; any other action → log and edit the acknowledgement to
"Unknown action". -/
def handleButton (cfg : List (String × ServerConfig)) (env : ButtonEnv)
    (i : ButtonInteraction) : List Effect :=
  Effect.interactionRespondDeferred ::
  (if !env.ackOk then [Effect.logLine "Error acknowledging interaction"]
   else
    Effect.logLine ("Received button interaction: " ++ i.customID) ::
    (let parts := splitChar '_' i.customID.toList
     if parts.length ≠ 2 then
       [Effect.logLine ("Invalid button customID format: " ++ i.customID)]
     else
       let action := String.mk (parts.headD [])
       let userID := String.mk (parts.getD 1 [])
       if action = "approve" then
         Effect.userChannelCreate userID ::
         (match env.dmChannel with
          | none => [Effect.logLine "Error creating DM channel"]
          | some dmChannelID =>
            Effect.channelMessageSend dmChannelID
              "You have been approved to join the UCLan Computing Society server. Welcome! 🎉" ::
            ((match lookupKey i.guildID cfg with
              | some serverConfig =>
                  if serverConfig.unverifiedRoleID ≠ "" then
                    [Effect.guildMemberRoleRemove i.guildID userID serverConfig.unverifiedRoleID]
                  else []
              | none => []) ++
             [Effect.channelMessageEdit i.channelID i.messageID
                ("<@" ++ userID ++ "> has been approved! Welcome to the server! 🎉") [],
              Effect.interactionResponseEdit "Action completed successfully"]))
       else if action = "deny" then
         Effect.userChannelCreate userID ::
         (match env.dmChannel with
          | none => [Effect.logLine "Error creating DM channel"]
          | some dmChannelID =>
            Effect.channelMessageSend dmChannelID denialMessage ::
            Effect.guildMemberDelete i.guildID userID ::
            (if !env.memberDeleteOk then
               [Effect.logLine ("Error kicking user " ++ userID),
                Effect.interactionResponseEdit "Error processing denial"]
             else
               [Effect.channelMessageEdit i.channelID i.messageID
                  ("<@" ++ userID ++ "> has been denied and removed from the server.") [],
                Effect.interactionResponseEdit "Action completed successfully"]))
       else
         [Effect.logLine ("Unknown action: " ++ action),
          Effect.interactionResponseEdit "Unknown action"]))

/-- `setMemberAuditChannel` from `part_001`, restricted to its config-store
mutation: create the entry as the zero value when absent, then overwrite its
`MemberAuditChannelID` field. -/
def setMemberAuditChannel (cfg : List (String × ServerConfig))
    (guildID channelID : String) : List (String × ServerConfig) :=
  let cfg' := if (lookupKey guildID cfg).isNone then setKey guildID ServerConfig.zero cfg else cfg
  let serverConfig := (lookupKey guildID cfg').getD ServerConfig.zero
  setKey guildID { serverConfig with memberAuditChannelID := channelID } cfg'

/-- `setUnverifiedRole` from `part_001`: create the entry when absent, then
overwrite its `UnverifiedRoleID` field. -/
def setUnverifiedRole (cfg : List (String × ServerConfig))
    (guildID roleID : String) : List (String × ServerConfig) :=
  let cfg' := if (lookupKey guildID cfg).isNone then setKey guildID ServerConfig.zero cfg else cfg
  let serverConfig := (lookupKey guildID cfg').getD ServerConfig.zero
  setKey guildID { serverConfig with unverifiedRoleID := roleID } cfg'

/-- `enableRateLimit` from `part_001`: create the entry when absent, set
`RateLimitEnabled`, and when `RateLimitDuration` is still `0` also set it to
the 5-minute default. -/
def enableRateLimit (cfg : List (String × ServerConfig))
    (guildID : String) : List (String × ServerConfig) :=
  let cfg' := if (lookupKey guildID cfg).isNone then setKey guildID ServerConfig.zero cfg else cfg
  let serverConfig := (lookupKey guildID cfg').getD ServerConfig.zero
  let serverConfig := { serverConfig with rateLimitEnabled := true }
  let serverConfig :=
    if serverConfig.rateLimitDuration = 0 then
      { serverConfig with rateLimitDuration := 5 * Minute }
    else serverConfig
  setKey guildID serverConfig cfg'

/-- `disableRateLimit` from `part_001`: create the entry when absent, then
clear `RateLimitEnabled`. -/
def disableRateLimit (cfg : List (String × ServerConfig))
    (guildID : String) : List (String × ServerConfig) :=
  let cfg' := if (lookupKey guildID cfg).isNone then setKey guildID ServerConfig.zero cfg else cfg
  let serverConfig := (lookupKey guildID cfg').getD ServerConfig.zero
  setKey guildID { serverConfig with rateLimitEnabled := false } cfg'

/-- `setRateLimit` from `part_001`: create the entry when absent, then
overwrite `RateLimitDuration` with `minutes * time.Minute`. -/
def setRateLimit (cfg : List (String × ServerConfig))
    (guildID : String) (minutes : Int) : List (String × ServerConfig) :=
  let cfg' := if (lookupKey guildID cfg).isNone then setKey guildID ServerConfig.zero cfg else cfg
  let serverConfig := (lookupKey guildID cfg').getD ServerConfig.zero
  setKey guildID { serverConfig with rateLimitDuration := minutes * Minute } cfg'

/-- A JSON value.  `saveConfig`/`loadConfig` are modelled at this level: the
byte rendering (`json.MarshalIndent` with two-space indent) and the byte
parser are the Go standard library's; what the repository determines is the
JSON shape produced from `Config` and the shape accepted back into it. -/
inductive Json where
  | null
  | bool (b : Bool)
  | num (n : Int)
  | str (s : String)
  | arr (elems : List Json)
  | obj (fields : List (String × Json))

/-- `Config` from `part_001`: the `servers` map, keyed by guild id. -/
structure Config where
  servers : List (String × ServerConfig)
deriving DecidableEq, Repr

/-- `json.Marshal` of a `part_001` `ServerConfig`, following its struct tags:
`member_audit_channel_id`, `unverified_role_id`, `rate_limit_enabled`,
`rate_limit_duration` (a `time.Duration` marshals as its nanosecond count). -/
def ServerConfig.toJson (sc : ServerConfig) : Json :=
  .obj [("member_audit_channel_id", .str sc.memberAuditChannelID),
        ("unverified_role_id", .str sc.unverifiedRoleID),
        ("rate_limit_enabled", .bool sc.rateLimitEnabled),
        ("rate_limit_duration", .num sc.rateLimitDuration)]

/-- `json.Marshal` of `Config`: one top-level object with the `servers` key
holding the guild-id-to-`ServerConfig` object. -/
def Config.toJson (c : Config) : Json :=
  .obj [("servers", .obj (c.servers.map (fun p => (p.1, ServerConfig.toJson p.2))))]

/-- `json.Unmarshal` of a JSON value into a `string` field: a missing field
leaves the zero value, a present field must be a JSON string. -/
def decodeStringField (j : Option Json) : Except String String :=
  match j with
  | none => .ok ""
  | some (.str s) => .ok s
  | some _ => .error "cannot unmarshal into field of type string"

/-- `json.Unmarshal` of a JSON value into a `bool` field. -/
def decodeBoolField (j : Option Json) : Except String Bool :=
  match j with
  | none => .ok false
  | some (.bool b) => .ok b
  | some _ => .error "cannot unmarshal into field of type bool"

/-- `json.Unmarshal` of a JSON value into a `time.Duration` field (an `int64`
nanosecond count). -/
def decodeDurationField (j : Option Json) : Except String Int :=
  match j with
  | none => .ok 0
  | some (.num n) => .ok n
  | some _ => .error "cannot unmarshal into field of type time.Duration"

/-- `json.Unmarshal` into a `ServerConfig`: an object supplies the tagged
fields (missing tags leave zero values, unknown keys are ignored), `null` is
a no-op, anything else is a type error. -/
def ServerConfig.fromJson : Json → Except String ServerConfig
  | .obj fields => do
      let audit ← decodeStringField (lookupKey "member_audit_channel_id" fields)
      let role ← decodeStringField (lookupKey "unverified_role_id" fields)
      let enabled ← decodeBoolField (lookupKey "rate_limit_enabled" fields)
      let dur ← decodeDurationField (lookupKey "rate_limit_duration" fields)
      .ok { memberAuditChannelID := audit, unverifiedRoleID := role,
            rateLimitEnabled := enabled, rateLimitDuration := dur }
  | .null => .ok ServerConfig.zero
  | _ => .error "cannot unmarshal into ServerConfig"

/-- `json.Unmarshal` of the entries of the `servers` object. -/
def decodeServers : List (String × Json) → Except String (List (String × ServerConfig))
  | [] => .ok []
  | (k, j) :: rest => do
      let sc ← ServerConfig.fromJson j
      let tail ← decodeServers rest
      .ok ((k, sc) :: tail)

/-- `json.Unmarshal` into `Config`: the top level must be an object (or
`null`); a missing or `null` `servers` key leaves the zero (empty) map; a
`servers` object is decoded entrywise. -/
def Config.fromJson : Json → Except String Config
  | .obj fields =>
      (match lookupKey "servers" fields with
       | none => .ok { servers := [] }
       | some .null => .ok { servers := [] }
       | some (.obj entries) => do
           let s ← decodeServers entries
           .ok { servers := s }
       | some _ => .error "cannot unmarshal into map")
  | .null => .ok { servers := [] }
  | _ => .error "cannot unmarshal into Config"

/-- The outcome of `os.ReadFile("./data/config.json")` as `loadConfig`
distinguishes it: the not-exist error, any other read error, or the file's
bytes — the latter modelled by their parse: `none` for bytes that are not
valid JSON, `some j` for bytes parsing to the value `j`. -/
inductive ReadFileResult where
  | notExist
  | failure (err : String)
  | success (data : Option Json)

/-- `loadConfig` from `part_001` (identically `main.go`/`part_000` up to the
file path): a missing file yields the empty config and no error; any other
read error is returned as-is; otherwise the bytes are unmarshalled into
`Config`, failing on invalid JSON or on a shape/type mismatch. -/
def loadConfig : ReadFileResult → Except String Config
  | .notExist => .ok { servers := [] }
  | .failure e => .error e
  | .success none => .error "invalid JSON"
  | .success (some j) => Config.fromJson j

end Part001

end ModBot

namespace ModBot

theorem takeWhile_append_emailDomain (l : List Char)
    (hl : ∀ c ∈ l, isEmailLocalChar c = true) :
    (l ++ emailDomainSuffix).takeWhile isEmailLocalChar = l ∧
    (l ++ emailDomainSuffix).dropWhile isEmailLocalChar = emailDomainSuffix := by
  induction l with
  | nil => exact ⟨by decide, by decide⟩
  | cons c cs ih =>
    have hc : isEmailLocalChar c = true := hl c (List.mem_cons_self c cs)
    have hcs : ∀ x ∈ cs, isEmailLocalChar x = true :=
      fun x hx => hl x (List.mem_cons_of_mem c hx)
    obtain ⟨h1, h2⟩ := ih hcs
    simp [List.takeWhile_cons, List.dropWhile_cons, hc, h1, h2]

theorem emailRegexMatch_iff (s : String) :
    emailRegexMatch s = true ↔
      ∃ l : List Char, s.toList = l ++ emailDomainSuffix ∧ l ≠ [] ∧
        ∀ c ∈ l, isEmailLocalChar c = true := by
  constructor
  · intro h
    unfold emailRegexMatch at h
    rw [Bool.and_eq_true] at h
    obtain ⟨h1, h2⟩ := h
    have hd : s.toList.dropWhile isEmailLocalChar = emailDomainSuffix :=
      eq_of_beq h2
    refine ⟨s.toList.takeWhile isEmailLocalChar, ?_, ?_, ?_⟩
    · have hsplit : s.toList.takeWhile isEmailLocalChar ++
          s.toList.dropWhile isEmailLocalChar = s.toList :=
        List.takeWhile_append_dropWhile isEmailLocalChar s.toList
      rw [hd] at hsplit
      exact hsplit.symm
    · intro hnil
      rw [hnil] at h1
      simp at h1
    · intro c hc
      exact List.mem_takeWhile_imp hc
  · rintro ⟨l, hs, hne, hall⟩
    obtain ⟨h1, h2⟩ := takeWhile_append_emailDomain l hall
    unfold emailRegexMatch
    rw [hs, Bool.and_eq_true]
    refine ⟨?_, ?_⟩
    · rw [h1]
      simpa using hne
    · rw [h2]
      simp

/-- C2 (counterexample): the specification's literal acceptance example — the
string `a.b-c%[email protected]` exactly as it stands in the spec text, an
artifact of an email-protection filter — is in fact rejected by `emailRegex`,
since it does not end in the literal suffix `@uclan.ac.uk`. -/
theorem emailRegex_literal_example_rejected :
    emailRegexMatch "a.b-c%[email protected]" = false := by decide

/-- C2 (amended): a string matches `emailRegex` iff it is one or more
characters of the class `[a-zA-Z0-9._%+-]` followed by exactly the
case-sensitive suffix `@uclan.ac.uk`; the visible prefix of the spec's
mangled example extended with the required domain, `a.b-c%@uclan.ac.uk`, is
accepted, while the spec's literal `[email protected]`, `user@other.ac.uk` and
`not-an-email` are all rejected. -/
theorem emailRegex_characterization :
    (∀ s : String, emailRegexMatch s = true ↔
       ∃ l : List Char, s.toList = l ++ emailDomainSuffix ∧ l ≠ [] ∧
         ∀ c ∈ l, isEmailLocalChar c = true) ∧
    emailRegexMatch "a.b-c%@uclan.ac.uk" = true ∧
    emailRegexMatch "[email protected]" = false ∧
    emailRegexMatch "user@other.ac.uk" = false ∧
    emailRegexMatch "not-an-email" = false :=
  ⟨emailRegexMatch_iff, by decide, by decide, by decide, by decide⟩

/-- C1: for any user, a first rate-limit check with no recorded timestamp
records the current time and allows; a second check within the configured
duration refuses and leaves the recorded timestamp unchanged; a check whose
elapsed time reaches the duration records the new time and allows again. -/
theorem rateLimit_fresh_within_after (rl : RateLimitMap) (u : String)
    (dur t1 t2 t3 : Int) (hfresh : lookupKey u rl = none)
    (hwithin : t2 - t1 < dur) (hafter : dur ≤ t3 - t1) :
    rateLimitCheck rl u t1 dur = (true, setKey u t1 rl) ∧
    rateLimitCheck (setKey u t1 rl) u t2 dur = (false, setKey u t1 rl) ∧
    rateLimitCheck (setKey u t1 rl) u t3 dur = (true, setKey u t3 (setKey u t1 rl)) := by
  refine ⟨?_, ?_, ?_⟩
  · simp [rateLimitCheck, hfresh]
  · simp [rateLimitCheck, lookupKey_setKey_self, hwithin]
  · have h3 : ¬ t3 - t1 < dur := by omega
    simp [rateLimitCheck, lookupKey_setKey_self, h3]

/-- Witness for C1 at a concrete map: user `user1`, duration 5 minutes,
checks at time 0, at 1 minute and at 6 minutes. -/
theorem rateLimit_fresh_within_after_spot :
    rateLimitCheck [] "user1" 0 (5 * Minute) = (true, setKey "user1" 0 []) ∧
    rateLimitCheck (setKey "user1" 0 []) "user1" Minute (5 * Minute) =
      (false, setKey "user1" 0 []) ∧
    rateLimitCheck (setKey "user1" 0 []) "user1" (6 * Minute) (5 * Minute) =
      (true, setKey "user1" (6 * Minute) (setKey "user1" 0 [])) :=
  rateLimit_fresh_within_after [] "user1" (5 * Minute) 0 Minute (6 * Minute) rfl
    (by decide) (by decide)

/-- C3 (code bug): the audit-channel guard does not behave as specified in
either revision.  In `part_000` the guard tests the `VerificationChannelID`
field while its own log line says "No member audit channel configured": with
an audit channel configured but the verification channel empty, the handler
aborts with that log line and posts nothing.  In `part_001` there is no guard
at all: with no audit channel configured (zero-value config for the resolved
guild) the handler still attempts the audit post, to the empty channel id,
instead of aborting silently. -/
theorem auditChannel_guard_divergence :
    Part000.processEmailVerification
      [("g1", { verificationChannelID := "", memberAuditChannelID := "audit-chan",
                unverifiedRoleID := "" })]
      [{ id := "g1", members := ["u1"] }] []
      { authorID := "u1", username := "alice", discriminator := "0001",
        content := "a@uclan.ac.uk", channelID := "dm1", guildID := "" } 0 =
      ([("u1", 0)],
       [Effect.logLine "No member audit channel configured for guild g1"]) ∧
    Part001.processEmailVerification
      [("", Part001.ServerConfig.zero),
       ("g1", { memberAuditChannelID := "", unverifiedRoleID := "",
                rateLimitEnabled := false, rateLimitDuration := 0 })]
      [{ id := "g1", members := ["u1"] }] []
      { authorID := "u1", username := "alice", discriminator := "0001",
        content := "a@uclan.ac.uk", channelID := "dm1", guildID := "" } 0 =
      ([],
       [Effect.channelMessageSendComplex ""
         "User alice#0001 has requested verification with email a@uclan.ac.uk"
         ["approve_u1", "deny_u1"]]) := by
  exact ⟨by decide, by decide⟩

/-- C4 (code bug): in `part_001` the guild-config lookup keyed by the
message's own guild id — which is empty for every direct message — precedes
the rate-limit and email checks, and the handler returns at once when that
entry is absent.  At the same input (a currently rate-limited user, empty
config map) the `part_000` revision refuses at the rate-limit check without
consulting any config, while `part_001` emits only the missing-config log
line: neither the rate-limit nor the email check ever runs. -/
theorem part001_configCheck_precedes_preconditions :
    Part000.processEmailVerification [] [] [("u1", 0)]
      { authorID := "u1", username := "alice", discriminator := "0001",
        content := "a@uclan.ac.uk", channelID := "dm1", guildID := "" } Minute =
      ([("u1", 0)],
       [Effect.channelMessageSend "dm1"
         "Please wait 5 minutes before sending another verification request."]) ∧
    Part001.processEmailVerification [] [] [("u1", 0)]
      { authorID := "u1", username := "alice", discriminator := "0001",
        content := "a@uclan.ac.uk", channelID := "dm1", guildID := "" } Minute =
      ([("u1", 0)], [Effect.logLine "No config found for guild "]) := by
  exact ⟨by decide, by decide⟩

/-- C10: in `part_000`'s `processEmailVerification` the rate-limit timestamp
is recorded before the email pattern is tested, so a fresh user whose message
fails validation gets the "invalid email" reply with the timestamp recorded,
and any further message from the same user within the 5-minute window is
refused as rate-limited — although no verification request was ever posted. -/
theorem invalidEmail_still_records_rateLimit
    (cfg : List (String × Part000.ServerConfig)) (guilds : List Guild)
    (rl : RateLimitMap) (m1 m2 : Message) (t1 t2 : Int)
    (hfresh : lookupKey m1.authorID rl = none)
    (hbad : emailRegexMatch m1.content = false)
    (hsame : m2.authorID = m1.authorID)
    (hwithin : t2 - t1 < 5 * Minute) :
    Part000.processEmailVerification cfg guilds rl m1 t1 =
      (setKey m1.authorID t1 rl,
       [Effect.channelMessageSend m1.channelID
         "Invalid email. Please provide a valid UCLan email."]) ∧
    Part000.processEmailVerification cfg guilds (setKey m1.authorID t1 rl) m2 t2 =
      (setKey m1.authorID t1 rl,
       [Effect.channelMessageSend m2.channelID
         "Please wait 5 minutes before sending another verification request."]) := by
  constructor
  · simp [Part000.processEmailVerification, rateLimitCheck, hfresh, hbad]
  · simp [Part000.processEmailVerification, rateLimitCheck, hsame,
      lookupKey_setKey_self, hwithin]

/-- Witness for C10: user `u1` first sends `not-an-email` at time 0, then a
valid address one minute later, and is refused as rate-limited. -/
theorem invalidEmail_still_records_rateLimit_spot :
    Part000.processEmailVerification [] [] []
      { authorID := "u1", username := "alice", discriminator := "0001",
        content := "not-an-email", channelID := "dm1", guildID := "" } 0 =
      (setKey "u1" 0 [],
       [Effect.channelMessageSend "dm1"
         "Invalid email. Please provide a valid UCLan email."]) ∧
    Part000.processEmailVerification [] [] (setKey "u1" 0 [])
      { authorID := "u1", username := "alice", discriminator := "0001",
        content := "a@uclan.ac.uk", channelID := "dm1", guildID := "" } Minute =
      (setKey "u1" 0 [],
       [Effect.channelMessageSend "dm1"
         "Please wait 5 minutes before sending another verification request."]) :=
  invalidEmail_still_records_rateLimit [] []
    []
    { authorID := "u1", username := "alice", discriminator := "0001",
      content := "not-an-email", channelID := "dm1", guildID := "" }
    { authorID := "u1", username := "alice", discriminator := "0001",
      content := "a@uclan.ac.uk", channelID := "dm1", guildID := "" }
    0 Minute rfl (by decide) rfl (by decide)

/-- Whether an effect is an edit of the deferred interaction acknowledgement. -/
def isResponseEdit : Effect → Bool
  | Effect.interactionResponseEdit _ => true
  | _ => false

theorem splitChar_not_mem (sep : Char) (l : List Char) (h : sep ∉ l) :
    Part001.splitChar sep l = [l] := by
  induction l with
  | nil => rfl
  | cons c cs ih =>
    have hc : ¬ c = sep := fun hh => h (by simp [hh])
    have hcs : sep ∉ cs := fun hh => h (List.mem_cons_of_mem c hh)
    simp [Part001.splitChar, hc, ih hcs]

theorem splitChar_append_sep (sep : Char) (l1 l2 : List Char) (h : sep ∉ l1) :
    Part001.splitChar sep (l1 ++ sep :: l2) = l1 :: Part001.splitChar sep l2 := by
  induction l1 with
  | nil => simp [Part001.splitChar]
  | cons c cs ih =>
    have hc : ¬ c = sep := fun hh => h (by simp [hh])
    have hcs : sep ∉ cs := fun hh => h (List.mem_cons_of_mem c hh)
    simp [Part001.splitChar, hc, ih hcs]

/-- C5 (counterexample): a button interaction whose custom id
`foo_bar_baz` splits into three parts is only logged — the handler returns
without editing the deferred acknowledgement, so no "unknown action" message
is shown (and no role removal, member removal or audit-message edit occurs,
as the full effect list shows). -/
theorem handleButton_threeParts_no_acknowledgement_edit :
    Part001.handleButton []
      { ackOk := true, dmChannel := some "dm1", memberDeleteOk := true }
      { customID := "foo_bar_baz", guildID := "g1", channelID := "c1",
        messageID := "m1" } =
      [Effect.interactionRespondDeferred,
       Effect.logLine "Received button interaction: foo_bar_baz",
       Effect.logLine "Invalid button customID format: foo_bar_baz"] ∧
    (Part001.handleButton []
      { ackOk := true, dmChannel := some "dm1", memberDeleteOk := true }
      { customID := "foo_bar_baz", guildID := "g1", channelID := "c1",
        messageID := "m1" }).all (fun e => !isResponseEdit e) = true := by
  exact ⟨by decide, by decide⟩

/-- C5 (amended): a custom id that does not split on `_` into exactly two
parts is logged and the handler returns without further side effects — in
particular without editing the acknowledgement; a custom id with exactly two
parts whose action is neither `approve` nor `deny` is logged and the
acknowledgement is edited to "Unknown action".  In both cases the full effect
list contains no role removal, no member removal and no audit-message edit. -/
theorem handleButton_malformed_or_unknown
    (cfg : List (String × Part001.ServerConfig)) (env : Part001.ButtonEnv)
    (i : Part001.ButtonInteraction) (hack : env.ackOk = true) :
    ((Part001.splitChar '_' i.customID.data).length ≠ 2 →
      Part001.handleButton cfg env i =
        [Effect.interactionRespondDeferred,
         Effect.logLine ("Received button interaction: " ++ i.customID),
         Effect.logLine ("Invalid button customID format: " ++ i.customID)]) ∧
    ((Part001.splitChar '_' i.customID.data).length = 2 →
      String.mk ((Part001.splitChar '_' i.customID.data).head?.getD []) ≠ "approve" →
      String.mk ((Part001.splitChar '_' i.customID.data).head?.getD []) ≠ "deny" →
      Part001.handleButton cfg env i =
        [Effect.interactionRespondDeferred,
         Effect.logLine ("Received button interaction: " ++ i.customID),
         Effect.logLine ("Unknown action: " ++
           String.mk ((Part001.splitChar '_' i.customID.data).head?.getD [])),
         Effect.interactionResponseEdit "Unknown action"]) := by
  constructor
  · intro hlen
    simp [Part001.handleButton, hack, hlen]
  · intro hlen happ hden
    simp [Part001.handleButton, hack, hlen, happ, hden]

/-- Witness for C5 (amended) at the custom id `launch_12345`: two parts,
unknown action. -/
theorem handleButton_malformed_or_unknown_spot :
    ((Part001.splitChar '_' ("launch_12345" : String).data).length ≠ 2 →
      Part001.handleButton []
        { ackOk := true, dmChannel := some "dm1", memberDeleteOk := true }
        { customID := "launch_12345", guildID := "g1", channelID := "c1",
          messageID := "m1" } =
        [Effect.interactionRespondDeferred,
         Effect.logLine ("Received button interaction: " ++ "launch_12345"),
         Effect.logLine ("Invalid button customID format: " ++ "launch_12345")]) ∧
    ((Part001.splitChar '_' ("launch_12345" : String).data).length = 2 →
      String.mk ((Part001.splitChar '_' ("launch_12345" : String).data).head?.getD []) ≠ "approve" →
      String.mk ((Part001.splitChar '_' ("launch_12345" : String).data).head?.getD []) ≠ "deny" →
      Part001.handleButton []
        { ackOk := true, dmChannel := some "dm1", memberDeleteOk := true }
        { customID := "launch_12345", guildID := "g1", channelID := "c1",
          messageID := "m1" } =
        [Effect.interactionRespondDeferred,
         Effect.logLine ("Received button interaction: " ++ "launch_12345"),
         Effect.logLine ("Unknown action: " ++
           String.mk ((Part001.splitChar '_' ("launch_12345" : String).data).head?.getD [])),
         Effect.interactionResponseEdit "Unknown action"]) :=
  handleButton_malformed_or_unknown []
    { ackOk := true, dmChannel := some "dm1", memberDeleteOk := true }
    { customID := "launch_12345", guildID := "g1", channelID := "c1",
      messageID := "m1" } rfl

/-- C6: for a `deny_<userId>` button (user id without underscores, DM channel
creation succeeding), a failed member removal makes the handler edit the
deferred acknowledgement to "Error processing denial" and stop — the audit
message is not edited, its controls stay intact — while a successful removal
makes it edit the audit message to drop all components and show the denial
line, then mark the acknowledgement completed.  The two effect lists are
given exactly. -/
theorem handleButton_deny_outcomes (cfg : List (String × Part001.ServerConfig))
    (env : Part001.ButtonEnv) (i : Part001.ButtonInteraction)
    (uid dmChannelID : String) (hack : env.ackOk = true)
    (hdm : env.dmChannel = some dmChannelID)
    (hid : i.customID = "deny_" ++ uid) (huid : '_' ∉ uid.data) :
    (env.memberDeleteOk = false →
      Part001.handleButton cfg env i =
        [Effect.interactionRespondDeferred,
         Effect.logLine ("Received button interaction: " ++ i.customID),
         Effect.userChannelCreate uid,
         Effect.channelMessageSend dmChannelID Part001.denialMessage,
         Effect.guildMemberDelete i.guildID uid,
         Effect.logLine ("Error kicking user " ++ uid),
         Effect.interactionResponseEdit "Error processing denial"]) ∧
    (env.memberDeleteOk = true →
      Part001.handleButton cfg env i =
        [Effect.interactionRespondDeferred,
         Effect.logLine ("Received button interaction: " ++ i.customID),
         Effect.userChannelCreate uid,
         Effect.channelMessageSend dmChannelID Part001.denialMessage,
         Effect.guildMemberDelete i.guildID uid,
         Effect.channelMessageEdit i.channelID i.messageID
           ("<@" ++ uid ++ "> has been denied and removed from the server.") [],
         Effect.interactionResponseEdit "Action completed successfully"]) := by
  have hdata : i.customID.data = ['d', 'e', 'n', 'y'] ++ '_' :: uid.data := by
    rw [hid]
    show ("deny_".data ++ uid.data) = _
    rfl
  have hsplit : Part001.splitChar '_' i.customID.data = [['d', 'e', 'n', 'y'], uid.data] := by
    rw [hdata, splitChar_append_sep '_' ['d', 'e', 'n', 'y'] uid.data (by decide),
      splitChar_not_mem '_' uid.data huid]
  have hmkdeny : String.mk ['d', 'e', 'n', 'y'] = "deny" := rfl
  have hmkuid : String.mk uid.data = uid := rfl
  have hnapp : ("deny" : String) ≠ "approve" := by decide
  constructor
  · intro hdel
    simp [Part001.handleButton, hack, hdm, hsplit, hmkdeny, hmkuid, hnapp, hdel]
  · intro hdel
    simp [Part001.handleButton, hack, hdm, hsplit, hmkdeny, hmkuid, hnapp, hdel]

/-- Witness for C6 at the custom id `deny_12345` with a failing member
removal: the acknowledgement shows the error and the audit message is not
edited. -/
theorem handleButton_deny_outcomes_spot :
    ((false : Bool) = false →
      Part001.handleButton []
        { ackOk := true, dmChannel := some "dm1", memberDeleteOk := false }
        { customID := "deny_12345", guildID := "g1", channelID := "c1",
          messageID := "m1" } =
        [Effect.interactionRespondDeferred,
         Effect.logLine ("Received button interaction: " ++ "deny_12345"),
         Effect.userChannelCreate "12345",
         Effect.channelMessageSend "dm1" Part001.denialMessage,
         Effect.guildMemberDelete "g1" "12345",
         Effect.logLine ("Error kicking user " ++ "12345"),
         Effect.interactionResponseEdit "Error processing denial"]) ∧
    ((false : Bool) = true →
      Part001.handleButton []
        { ackOk := true, dmChannel := some "dm1", memberDeleteOk := false }
        { customID := "deny_12345", guildID := "g1", channelID := "c1",
          messageID := "m1" } =
        [Effect.interactionRespondDeferred,
         Effect.logLine ("Received button interaction: " ++ "deny_12345"),
         Effect.userChannelCreate "12345",
         Effect.channelMessageSend "dm1" Part001.denialMessage,
         Effect.guildMemberDelete "g1" "12345",
         Effect.channelMessageEdit "c1" "m1"
           ("<@" ++ "12345" ++ "> has been denied and removed from the server.") [],
         Effect.interactionResponseEdit "Action completed successfully"]) :=
  handleButton_deny_outcomes []
    { ackOk := true, dmChannel := some "dm1", memberDeleteOk := false }
    { customID := "deny_12345", guildID := "g1", channelID := "c1",
      messageID := "m1" } "12345" "dm1" rfl rfl rfl (by decide)

/-- C7 (counterexample): on a guild with no config entry, `enable_rate_limit`
does not leave every field other than its own unchanged: the freshly created
default entry has `rateLimitDuration = 0`, yet after the handler runs the
lookup shows a duration of 5 minutes — a second field was mutated alongside
`rateLimitEnabled`. -/
theorem enableRateLimit_mutates_second_field :
    lookupKey "g1" (Part001.enableRateLimit [] "g1") =
      some { memberAuditChannelID := "", unverifiedRoleID := "",
             rateLimitEnabled := true, rateLimitDuration := 5 * Minute } ∧
    (5 * Minute : Int) ≠ Part001.ServerConfig.zero.rateLimitDuration :=
  ⟨by decide, by decide⟩

/-- C7 (amended): each admin command handler creates the zero-value entry for
the guild when none exists and then mutates exactly its own field — except
`enable_rate_limit`, which in addition sets `rateLimitDuration` to the
5-minute default whenever that field was still `0` — and every handler leaves
the entries of all other guilds unchanged. -/
theorem adminCommands_upsert_frame (cfg : List (String × Part001.ServerConfig))
    (g g' channelID roleID : String) (minutes : Int) (hne : g' ≠ g) :
    (lookupKey g (Part001.setMemberAuditChannel cfg g channelID) =
      some { (lookupKey g cfg).getD Part001.ServerConfig.zero with
             memberAuditChannelID := channelID }) ∧
    (lookupKey g (Part001.setUnverifiedRole cfg g roleID) =
      some { (lookupKey g cfg).getD Part001.ServerConfig.zero with
             unverifiedRoleID := roleID }) ∧
    (lookupKey g (Part001.disableRateLimit cfg g) =
      some { (lookupKey g cfg).getD Part001.ServerConfig.zero with
             rateLimitEnabled := false }) ∧
    (lookupKey g (Part001.setRateLimit cfg g minutes) =
      some { (lookupKey g cfg).getD Part001.ServerConfig.zero with
             rateLimitDuration := minutes * Minute }) ∧
    (lookupKey g (Part001.enableRateLimit cfg g) =
      some { (lookupKey g cfg).getD Part001.ServerConfig.zero with
             rateLimitEnabled := true,
             rateLimitDuration :=
               if ((lookupKey g cfg).getD Part001.ServerConfig.zero).rateLimitDuration = 0
               then 5 * Minute
               else ((lookupKey g cfg).getD Part001.ServerConfig.zero).rateLimitDuration }) ∧
    lookupKey g' (Part001.setMemberAuditChannel cfg g channelID) = lookupKey g' cfg ∧
    lookupKey g' (Part001.setUnverifiedRole cfg g roleID) = lookupKey g' cfg ∧
    lookupKey g' (Part001.disableRateLimit cfg g) = lookupKey g' cfg ∧
    lookupKey g' (Part001.setRateLimit cfg g minutes) = lookupKey g' cfg ∧
    lookupKey g' (Part001.enableRateLimit cfg g) = lookupKey g' cfg := by
  cases h : lookupKey g cfg with
  | none =>
    refine ⟨?_, ?_, ?_, ?_, ?_, ?_, ?_, ?_, ?_, ?_⟩ <;>
      simp [Part001.setMemberAuditChannel, Part001.setUnverifiedRole,
        Part001.disableRateLimit, Part001.setRateLimit, Part001.enableRateLimit,
        Part001.ServerConfig.zero, h, hne, lookupKey_setKey_self, lookupKey_setKey_ne]
  | some sc =>
    by_cases hd : sc.rateLimitDuration = 0 <;>
      refine ⟨?_, ?_, ?_, ?_, ?_, ?_, ?_, ?_, ?_, ?_⟩ <;>
        simp [Part001.setMemberAuditChannel, Part001.setUnverifiedRole,
          Part001.disableRateLimit, Part001.setRateLimit, Part001.enableRateLimit,
          h, hd, hne, lookupKey_setKey_self, lookupKey_setKey_ne]

/-- Witness for C7 (amended) on the empty config map with guilds `g1`/`g2`. -/
theorem adminCommands_upsert_frame_spot :
    (lookupKey "g1" (Part001.setMemberAuditChannel [] "g1" "chan") =
      some { (lookupKey "g1" ([] : List (String × Part001.ServerConfig))).getD
               Part001.ServerConfig.zero with memberAuditChannelID := "chan" }) ∧
    (lookupKey "g1" (Part001.setUnverifiedRole [] "g1" "role") =
      some { (lookupKey "g1" ([] : List (String × Part001.ServerConfig))).getD
               Part001.ServerConfig.zero with unverifiedRoleID := "role" }) ∧
    (lookupKey "g1" (Part001.disableRateLimit [] "g1") =
      some { (lookupKey "g1" ([] : List (String × Part001.ServerConfig))).getD
               Part001.ServerConfig.zero with rateLimitEnabled := false }) ∧
    (lookupKey "g1" (Part001.setRateLimit [] "g1" 7) =
      some { (lookupKey "g1" ([] : List (String × Part001.ServerConfig))).getD
               Part001.ServerConfig.zero with rateLimitDuration := 7 * Minute }) ∧
    (lookupKey "g1" (Part001.enableRateLimit [] "g1") =
      some { (lookupKey "g1" ([] : List (String × Part001.ServerConfig))).getD
               Part001.ServerConfig.zero with
             rateLimitEnabled := true,
             rateLimitDuration :=
               if ((lookupKey "g1" ([] : List (String × Part001.ServerConfig))).getD
                     Part001.ServerConfig.zero).rateLimitDuration = 0
               then 5 * Minute
               else ((lookupKey "g1" ([] : List (String × Part001.ServerConfig))).getD
                       Part001.ServerConfig.zero).rateLimitDuration }) ∧
    lookupKey "g2" (Part001.setMemberAuditChannel [] "g1" "chan") =
      lookupKey "g2" ([] : List (String × Part001.ServerConfig)) ∧
    lookupKey "g2" (Part001.setUnverifiedRole [] "g1" "role") =
      lookupKey "g2" ([] : List (String × Part001.ServerConfig)) ∧
    lookupKey "g2" (Part001.disableRateLimit [] "g1") =
      lookupKey "g2" ([] : List (String × Part001.ServerConfig)) ∧
    lookupKey "g2" (Part001.setRateLimit [] "g1" 7) =
      lookupKey "g2" ([] : List (String × Part001.ServerConfig)) ∧
    lookupKey "g2" (Part001.enableRateLimit [] "g1") =
      lookupKey "g2" ([] : List (String × Part001.ServerConfig)) :=
  adminCommands_upsert_frame [] "g1" "g2" "chan" "role" 7 (by decide)

theorem serverConfig_fromJson_toJson (sc : Part001.ServerConfig) :
    Part001.ServerConfig.fromJson (Part001.ServerConfig.toJson sc) = Except.ok sc := rfl

theorem decodeServers_roundtrip (l : List (String × Part001.ServerConfig)) :
    Part001.decodeServers (l.map (fun p => (p.1, Part001.ServerConfig.toJson p.2))) =
      Except.ok l := by
  induction l with
  | nil => rfl
  | cons p rest ih =>
    obtain ⟨k, sc⟩ := p
    simp [Part001.decodeServers, serverConfig_fromJson_toJson, ih]
    rfl

/-- C8: marshalling the in-memory config map as the `servers`-keyed JSON
object (the value-level content of `saveConfig`; the two-space pretty-printed
byte rendering is the standard library's) and unmarshalling it back (the
value-level content of `loadConfig`) reproduces the same
guild-to-`ServerConfig` mapping, rate-limit flag and duration included. -/
theorem saveConfig_loadConfig_roundtrip (c : Part001.Config) :
    Part001.Config.fromJson (Part001.Config.toJson c) = Except.ok c := by
  obtain ⟨servers⟩ := c
  simp [Part001.Config.toJson, Part001.Config.fromJson, lookupKey, decodeServers_roundtrip]
  rfl

/-- The literal reading of the failure clause of the load claim: `loadConfig`
fails only in runs where the persisted file exists with some content. -/
def loadFailsOnlyWithContent : Prop :=
  ∀ r : Part001.ReadFileResult,
    (∃ e, Part001.loadConfig r = Except.error e) →
    ∃ d, r = Part001.ReadFileResult.success d

/-- C9 (counterexample): a read failure other than non-existence — e.g. a
permission error, which `loadConfig` returns as-is from `os.ReadFile` —
also makes `loadConfig` fail, refuting "fails only when the file exists but
contains malformed JSON". -/
theorem loadConfig_fails_on_read_error : ¬ loadFailsOnlyWithContent := by
  intro h
  obtain ⟨d, hd⟩ :=
    h (Part001.ReadFileResult.failure "permission denied") ⟨"permission denied", rfl⟩
  exact Part001.ReadFileResult.noConfusion hd

/-- C9 (amended): `loadConfig` on a missing persisted file produces the empty
config map and no error; it fails when the read fails for a reason other than
non-existence (returning that error), and on existing content it fails
exactly when the bytes are not valid JSON or do not unmarshal into `Config`. -/
theorem loadConfig_characterization :
    Part001.loadConfig Part001.ReadFileResult.notExist = Except.ok { servers := [] } ∧
    (∀ e, Part001.loadConfig (Part001.ReadFileResult.failure e) = Except.error e) ∧
    Part001.loadConfig (Part001.ReadFileResult.success none) = Except.error "invalid JSON" ∧
    (∀ j, Part001.loadConfig (Part001.ReadFileResult.success (some j)) =
      Part001.Config.fromJson j) :=
  ⟨rfl, fun _ => rfl, rfl, fun _ => rfl⟩

end ModBot
